import Mathlib

/-!
Verification of the rocketpool exporter (exporter/rocketpool.go).

The development shallowly embeds the synchronization engine of the exporter:
its entity structures, the per-entity refresh methods, the three resource
synchronizers, the initial cache loaders, the batched persistence layer and
the scheduler loop.  External collaborators (the rocketpool chain read API
and the SQL database) are modelled as explicit environments of fallible
functions; Go methods that mutate their receiver are modelled as pure
functions returning the post-call receiver state together with an optional
error, so that the early-return paths of the Go code are visible as
branches that return the receiver unchanged.

Carrier conventions:
  * 20-byte addresses, public keys and byte strings are carried as `Nat`
    (the Go code only moves them around and compares them; the hex
    encodings used as map keys are injective, so the address value itself
    serves as the key);
  * `time.Time` values and `big.Int` values are carried as `Int`;
  * `float64` values (node fee, vote tallies) are never used arithmetically
    by the exporter, only copied and stored, so they are carried as `Int`
    as well;
  * enumeration values that the Go code immediately converts with
    `.String()` (minipool status, deposit type, proposal state) are carried
    as `String`.
-/

namespace RocketpoolSpec

/-- Errors returned by the chain read API or the database are opaque to the
exporter; it only branches on presence of an error. -/
abbrev Err := String

instance {ε α : Type} [DecidableEq ε] [DecidableEq α] :
    DecidableEq (Except ε α) := fun x y =>
  match x, y with
  | .ok a, .ok b =>
    if h : a = b then .isTrue (congrArg Except.ok h)
    else .isFalse (fun hc => h (Except.ok.inj hc))
  | .error a, .error b =>
    if h : a = b then .isTrue (congrArg Except.error h)
    else .isFalse (fun hc => h (Except.error.inj hc))
  | .ok _, .error _ => .isFalse (fun hc => Except.noConfusion hc)
  | .error _, .ok _ => .isFalse (fun hc => Except.noConfusion hc)

/-- Carrier for 20-byte addresses (`common.Address`); `Hex`, `Bytes` and
`BytesToAddress` are injective conversions, modelled as the identity. -/
abbrev Addr := Nat

/-- Carrier for raw byte strings (public keys, payloads, storage address). -/
abbrev Bytes := Nat

/-! ### Go map model

A Go `map` is modelled as an association list with at most one entry per
key: `lookupA` is map indexing, `insertA` is map assignment (overwrite the
existing entry, or append a new one), `keysA` is the key set.  Iteration
order of a Go map is unspecified; the claims proved below never depend on
the order, and list order stands in for one arbitrary iteration order. -/

def lookupA {ν : Type} : List (Nat × ν) → Nat → Option ν
  | [], _ => none
  | (k, v) :: t, a => if k = a then some v else lookupA t a

def insertA {ν : Type} : List (Nat × ν) → Nat → ν → List (Nat × ν)
  | [], k, v => [(k, v)]
  | (k', v') :: t, k, v => if k' = k then (k, v) :: t else (k', v') :: insertA t k v

def keysA {ν : Type} (c : List (Nat × ν)) : List Nat :=
  c.map Prod.fst

@[simp]
theorem lookupA_nil {ν : Type} (a : Nat) : lookupA ([] : List (Nat × ν)) a = none := rfl

theorem lookupA_insertA {ν : Type} (c : List (Nat × ν)) (k a : Nat) (v : ν) :
    lookupA (insertA c k v) a = if k = a then some v else lookupA c a := by
  induction c with
  | nil => simp [insertA, lookupA]
  | cons h t ih =>
    obtain ⟨k', v'⟩ := h
    by_cases hk : k' = k
    · subst hk
      by_cases ha : k' = a <;> simp [insertA, lookupA, ha]
    · by_cases ha : k' = a
      · subst ha
        have hk2 : ¬k = k' := fun h => hk h.symm
        simp [insertA, lookupA, hk, hk2]
      · simp [insertA, lookupA, hk, ha, ih]

theorem mem_keysA_insertA {ν : Type} (c : List (Nat × ν)) (k a : Nat) (v : ν) :
    a ∈ keysA (insertA c k v) ↔ a = k ∨ a ∈ keysA c := by
  induction c with
  | nil => simp [insertA, keysA]
  | cons h t ih =>
    obtain ⟨k', v'⟩ := h
    by_cases hk : k' = k
    · subst hk
      have h1 : insertA ((k', v') :: t) k' v = (k', v) :: t := by
        simp [insertA]
      rw [h1]
      simp only [keysA, List.map_cons, List.mem_cons]
      tauto
    · have h1 : insertA ((k', v') :: t) k v = (k', v') :: insertA t k v := by
        simp [insertA, hk]
      rw [h1]
      simp only [keysA, List.map_cons, List.mem_cons] at ih ⊢
      tauto

theorem mem_keysA_of_lookupA {ν : Type} (c : List (Nat × ν)) (a : Nat) (v : ν)
    (h : lookupA c a = some v) : a ∈ keysA c := by
  induction c with
  | nil => simp [lookupA] at h
  | cons hd t ih =>
    obtain ⟨k', v'⟩ := hd
    by_cases hk : k' = a
    · subst hk; simp [keysA]
    · simp only [lookupA, if_neg hk] at h
      simp only [keysA, List.map_cons, List.mem_cons]
      exact Or.inr (ih h)

/-! ### Entity structures (rocketpool.go lines 451-459, 527-533, 570-588) -/

/-- RocketpoolMinipool: address, pubkey, node address, node fee and deposit
type are set at creation and never rewritten; status and status time are
the mutable attributes rewritten by `Update`. -/
structure RocketpoolMinipool where
  Address : Bytes
  Pubkey : Bytes
  NodeAddress : Bytes
  NodeFee : Int
  DepositType : String
  Status : String
  StatusTime : Int
  deriving DecidableEq, Inhabited

/-- RocketpoolNode: address and timezone location are set at creation;
the three stake amounts are the mutable attributes rewritten by `Update`. -/
structure RocketpoolNode where
  Address : Bytes
  TimezoneLocation : String
  RPLStake : Int
  MinRPLStake : Int
  MaxRPLStake : Int
  deriving DecidableEq, Inhabited

/-- RocketpoolProposal: every field is rewritten by `Update` from the
proposal details returned by the chain read API. -/
structure RocketpoolProposal where
  ID : Nat
  DAO : String
  ProposerAddress : Bytes
  Message : String
  CreatedTime : Int
  StartTime : Int
  EndTime : Int
  ExpiryTime : Int
  VotesRequired : Int
  VotesFor : Int
  VotesAgainst : Int
  MemberVoted : Bool
  MemberSupported : Bool
  IsCancelled : Bool
  IsExecuted : Bool
  Payload : Bytes
  State : String
  deriving DecidableEq, Inhabited

/-- Zero value of the Go struct `RocketpoolProposal{}` (all fields at their
Go zero values) before `ID` is set by `NewRocketpoolProposal`. -/
def zeroProposal : RocketpoolProposal :=
  { ID := 0, DAO := "", ProposerAddress := 0, Message := "", CreatedTime := 0,
    StartTime := 0, EndTime := 0, ExpiryTime := 0, VotesRequired := 0,
    VotesFor := 0, VotesAgainst := 0, MemberVoted := false,
    MemberSupported := false, IsCancelled := false, IsExecuted := false,
    Payload := 0, State := "" }

/-- Proposal details as returned by `dao.GetProposalDetails`; timestamps are
`uint64` seconds, carried as `Nat`. -/
structure ProposalDetails where
  ID : Nat
  DAO : String
  ProposerAddress : Bytes
  Message : String
  CreatedTime : Nat
  StartTime : Nat
  EndTime : Nat
  ExpiryTime : Nat
  VotesRequired : Int
  VotesFor : Int
  VotesAgainst : Int
  MemberVoted : Bool
  MemberSupported : Bool
  IsCancelled : Bool
  IsExecuted : Bool
  Payload : Bytes
  State : String
  deriving DecidableEq, Inhabited

/-- Conversion `int64(u)` of a `uint64` value, as applied by the Go code to
the proposal timestamps before `time.Unix`; wraps at `2^63`. -/
def int64ofUint64 (n : Nat) : Int :=
  (((n + 2 ^ 63) % 2 ^ 64 : Nat) : Int) - 2 ^ 63

/-- Chain read API environment: one fallible function per read performed by
the exporter.  `newMinipoolErr` models failure of the contract-binding
constructor `minipool.NewMinipool`, which the Go code treats as one more
fallible read. -/
structure ChainAPI where
  getMinipoolAddresses : Except Err (List Addr)
  getMinipoolPubkey : Addr → Except Err Bytes
  newMinipoolErr : Addr → Option Err
  getNodeAddress : Addr → Except Err Addr
  getNodeFee : Addr → Except Err Int
  getDepositType : Addr → Except Err String
  getStatus : Addr → Except Err String
  getStatusTime : Addr → Except Err Int
  getNodeAddresses : Except Err (List Addr)
  getNodeTimezoneLocation : Addr → Except Err String
  getNodeRPLStake : Addr → Except Err Int
  getNodeMinimumRPLStake : Addr → Except Err Int
  getNodeMaximumRPLStake : Addr → Except Err Int
  getProposalCount : Except Err Nat
  getProposalDetails : Nat → Except Err ProposalDetails

/-! ### Per-entity refresh methods (rocketpool.go lines 461-525, 535-568, 590-622)

Each Go method mutates its receiver in place and returns an error; it is
modelled as a function from the pre-call receiver to the pair of the
post-call receiver and the optional error, so each Go early `return err`
appears as a branch returning the receiver unchanged. -/

/-- RocketpoolMinipool.Update (lines 496-525): rebuild the minipool binding,
then fetch status and status time as two concurrent reads joined by
`errgroup.Wait`; only when both succeed are `Status` and `StatusTime`
assigned.  `errgroup.Wait` returns the temporally first error; the model
deterministically prefers the status error, which no claim distinguishes. -/
def minipoolRefresh (api : ChainAPI) (this : RocketpoolMinipool) :
    RocketpoolMinipool × Option Err :=
  match api.newMinipoolErr this.Address with
  | some e => (this, some e)
  | none =>
    match api.getStatus this.Address, api.getStatusTime this.Address with
    | .error e, _ => (this, some e)
    | .ok _, .error e => (this, some e)
    | .ok st, .ok stTime =>
      ({ this with Status := st, StatusTime := stTime }, none)

/-- NewRocketpoolMinipool (lines 461-494): five immutable-field reads, then
an initial `Update` for the mutable fields; any failure aborts creation. -/
def newRocketpoolMinipool (api : ChainAPI) (addr : Addr) :
    Except Err RocketpoolMinipool :=
  match api.getMinipoolPubkey addr with
  | .error e => .error e
  | .ok pubk =>
  match api.newMinipoolErr addr with
  | some e => .error e
  | none =>
  match api.getNodeAddress addr with
  | .error e => .error e
  | .ok nodeAddr =>
  match api.getNodeFee addr with
  | .error e => .error e
  | .ok nodeFee =>
  match api.getDepositType addr with
  | .error e => .error e
  | .ok depositType =>
  match minipoolRefresh api
      ({ Address := addr, Pubkey := pubk, NodeAddress := nodeAddr,
         NodeFee := nodeFee, DepositType := depositType,
         Status := "", StatusTime := 0 }) with
  | (_, some e) => .error e
  | (rpm, none) => .ok rpm

/-- RocketpoolNode.Update (lines 551-568): three sequential stake reads;
the three stake fields are assigned only after all three succeed. -/
def nodeRefresh (api : ChainAPI) (this : RocketpoolNode) :
    RocketpoolNode × Option Err :=
  match api.getNodeRPLStake this.Address with
  | .error e => (this, some e)
  | .ok stake =>
  match api.getNodeMinimumRPLStake this.Address with
  | .error e => (this, some e)
  | .ok minStake =>
  match api.getNodeMaximumRPLStake this.Address with
  | .error e => (this, some e)
  | .ok maxStake =>
    ({ this with
        RPLStake := stake
        MinRPLStake := minStake
        MaxRPLStake := maxStake }, none)

/-- NewRocketpoolNode (lines 535-549): timezone read, then an initial
`Update`. -/
def newRocketpoolNode (api : ChainAPI) (addr : Addr) :
    Except Err RocketpoolNode :=
  match api.getNodeTimezoneLocation addr with
  | .error e => .error e
  | .ok tl =>
  match nodeRefresh api
      ({ Address := addr, TimezoneLocation := tl, RPLStake := 0,
         MinRPLStake := 0, MaxRPLStake := 0 }) with
  | (_, some e) => .error e
  | (rpn, none) => .ok rpn

/-- RocketpoolProposal.Update (lines 599-622): one read of the proposal
details; on success every field of the receiver is rewritten. -/
def proposalRefresh (api : ChainAPI) (this : RocketpoolProposal) :
    RocketpoolProposal × Option Err :=
  match api.getProposalDetails this.ID with
  | .error e => (this, some e)
  | .ok pd =>
    ({ ID := pd.ID, DAO := pd.DAO, ProposerAddress := pd.ProposerAddress,
       Message := pd.Message,
       CreatedTime := int64ofUint64 pd.CreatedTime,
       StartTime := int64ofUint64 pd.StartTime,
       EndTime := int64ofUint64 pd.EndTime,
       ExpiryTime := int64ofUint64 pd.ExpiryTime,
       VotesRequired := pd.VotesRequired, VotesFor := pd.VotesFor,
       VotesAgainst := pd.VotesAgainst, MemberVoted := pd.MemberVoted,
       MemberSupported := pd.MemberSupported, IsCancelled := pd.IsCancelled,
       IsExecuted := pd.IsExecuted, Payload := pd.Payload,
       State := pd.State }, none)

/-- NewRocketpoolProposal (lines 590-597): zero struct with `ID` set, then
an initial `Update`. -/
def newRocketpoolProposal (api : ChainAPI) (pid : Nat) :
    Except Err RocketpoolProposal :=
  match proposalRefresh api ({ zeroProposal with ID := pid }) with
  | (_, some e) => .error e
  | (p, none) => .ok p

/-! ### Resource synchronizers (rocketpool.go lines 147-246) -/

abbrev MinipoolCache := List (Nat × RocketpoolMinipool)
abbrev NodeCache := List (Nat × RocketpoolNode)
abbrev ProposalCache := List (Nat × RocketpoolProposal)

/-- Loop body of UpdateMinipools (lines 182-196): for each listed address,
refresh the existing cache entry in place, or create and insert a new
entity; the first failing read aborts the remaining work, leaving the cache
as mutated so far (the failing entity itself is untouched, since its
refresh assigns no field on the error path). -/
def updateMinipoolsGo (api : ChainAPI) :
    List Addr → MinipoolCache → MinipoolCache × Option Err
  | [], cache => (cache, none)
  | a :: rest, cache =>
    match lookupA cache a with
    | some mp =>
      match minipoolRefresh api mp with
      | (_, some e) => (cache, some e)
      | (mp2, none) => updateMinipoolsGo api rest (insertA cache a mp2)
    | none =>
      match newRocketpoolMinipool api a with
      | .error e => (cache, some e)
      | .ok mp => updateMinipoolsGo api rest (insertA cache a mp)

/-- UpdateMinipools (lines 172-198): list the minipool addresses, then run
the discovery/refresh loop.  The Go map key `a.Hex()` is an injective
encoding of the address, modelled as the address itself. -/
def updateMinipools (api : ChainAPI) (cache : MinipoolCache) :
    MinipoolCache × Option Err :=
  match api.getMinipoolAddresses with
  | .error e => (cache, some e)
  | .ok addrs => updateMinipoolsGo api addrs cache

/-- Loop body of UpdateNodes (lines 210-224), same shape as the minipool
loop. -/
def updateNodesGo (api : ChainAPI) :
    List Addr → NodeCache → NodeCache × Option Err
  | [], cache => (cache, none)
  | a :: rest, cache =>
    match lookupA cache a with
    | some nd =>
      match nodeRefresh api nd with
      | (_, some e) => (cache, some e)
      | (nd2, none) => updateNodesGo api rest (insertA cache a nd2)
    | none =>
      match newRocketpoolNode api a with
      | .error e => (cache, some e)
      | .ok nd => updateNodesGo api rest (insertA cache a nd)

/-- UpdateNodes (lines 200-226). -/
def updateNodes (api : ChainAPI) (cache : NodeCache) :
    NodeCache × Option Err :=
  match api.getNodeAddresses with
  | .error e => (cache, some e)
  | .ok addrs => updateNodesGo api addrs cache

/-- Loop body of UpdateProposals (lines 238-244): the Go loop
`for i := uint64(0); i < pc; i++` constructs the proposal with id `i+1`
and stores it at key `i` (`rp.ProposalsByID[i] = p`); the loop index list
is `List.range pc`. -/
def updateProposalsGo (api : ChainAPI) :
    List Nat → ProposalCache → ProposalCache × Option Err
  | [], cache => (cache, none)
  | i :: rest, cache =>
    match newRocketpoolProposal api (i + 1) with
    | .error e => (cache, some e)
    | .ok p => updateProposalsGo api rest (insertA cache i p)

/-- UpdateProposals (lines 228-246): read the proposal count, then run the
indexed loop. -/
def updateProposals (api : ChainAPI) (cache : ProposalCache) :
    ProposalCache × Option Err :=
  match api.getProposalCount with
  | .error e => (cache, some e)
  | .ok pc => updateProposalsGo api (List.range pc) cache

/-- Engine state: the storage contract address that scopes every persisted
row, and the three per-kind caches (RocketpoolExporter, lines 44-52). -/
structure EngineState where
  scope : Bytes
  minipools : MinipoolCache
  nodes : NodeCache
  proposals : ProposalCache
  deriving DecidableEq

/-- Update (lines 147-153): the three synchronizers run as one errgroup on
three disjoint caches; every goroutine runs to completion even when
another fails, so all three cache results are kept, and `Wait` reports one
of the errors (the temporally first; determinized here in kind order,
which no claim below distinguishes). -/
def engineUpdate (api : ChainAPI) (st : EngineState) :
    EngineState × Option Err :=
  let m := updateMinipools api st.minipools
  let n := updateNodes api st.nodes
  let p := updateProposals api st.proposals
  ({ st with minipools := m.1, nodes := n.1, proposals := p.1 },
    m.2 <|> n.2 <|> p.2)

/-! ### Initial cache loaders (rocketpool.go lines 70-121)

Each Init loop is `for _, x := range dbRes { m[key(x)] = &x }`.  Under the
Go semantics in force for this repository (before the Go 1.22 loop-variable
change) the loop declares a single variable `x`; `&x` therefore stores the
same pointer on every iteration, and once the loop finishes every inserted
key dereferences to the final value of `x`, i.e. the last row of the query
result.  The models below give the post-loop dereferenced view of the map:
one key per row, every key bound to the last row. -/

/-- InitMinipools (lines 87-97); the map key `fmt.Sprintf("%x", mp.Address)`
is an injective encoding of the address, modelled as the address itself. -/
def initMinipools (dbRes : List RocketpoolMinipool) (cache : MinipoolCache) :
    MinipoolCache :=
  match dbRes.getLast? with
  | none => cache
  | some last => dbRes.foldl (fun c mp => insertA c mp.Address last) cache

/-- InitNodes (lines 99-109). -/
def initNodes (dbRes : List RocketpoolNode) (cache : NodeCache) :
    NodeCache :=
  match dbRes.getLast? with
  | none => cache
  | some last => dbRes.foldl (fun c nd => insertA c nd.Address last) cache

/-- InitProposals (lines 111-121), keyed by `proposal.ID`. -/
def initProposals (dbRes : List RocketpoolProposal) (cache : ProposalCache) :
    ProposalCache :=
  match dbRes.getLast? with
  | none => cache
  | some last => dbRes.foldl (fun c p => insertA c p.ID last) cache

/-- Durable-storage contents at startup: result of the one select query per
kind issued by the Init functions. -/
structure DBRows where
  minipoolRows : Except Err (List RocketpoolMinipool)
  nodeRows : Except Err (List RocketpoolNode)
  proposalRows : Except Err (List RocketpoolProposal)

/-- Init (lines 70-85): the three loaders in sequence, stopping at the
first query error. -/
def engineInit (db : DBRows) (st : EngineState) : EngineState × Option Err :=
  match db.minipoolRows with
  | .error e => (st, some e)
  | .ok mrows =>
  match db.nodeRows with
  | .error e => ({ st with minipools := initMinipools mrows st.minipools }, some e)
  | .ok nrows =>
  match db.proposalRows with
  | .error e =>
      ({ st with
          minipools := initMinipools mrows st.minipools
          nodes := initNodes nrows st.nodes }, some e)
  | .ok prows =>
      ({ st with
          minipools := initMinipools mrows st.minipools
          nodes := initNodes nrows st.nodes
          proposals := initProposals prows st.proposals }, none)

/-! ### Startup path (rocketpool.go lines 30-68) -/

/-- Environment of the startup path: the two fallible constructions and the
durable-storage contents. -/
structure StartupEnv where
  dialErr : Option Err
  newRocketPoolErr : Option Err
  storageContractAddress : Bytes
  db : DBRows

/-- NewRocketpoolExporter (lines 54-68): builds the rocketpool API binding,
then returns the engine with the three caches set to fresh empty maps.  It
performs no durable-storage read. -/
def newRocketpoolExporter (env : StartupEnv) : Except Err EngineState :=
  match env.newRocketPoolErr with
  | some e => .error e
  | none =>
      .ok { scope := env.storageContractAddress, minipools := [],
            nodes := [], proposals := [] }

/-- rocketpoolExporter (lines 30-42): dial the eth1 endpoint, construct the
exporter, then immediately call Run.  The value returned here is the engine
state with which Run begins its first cycle; note that Init is never
invoked on this path. -/
def rocketpoolExporterStartup (env : StartupEnv) : Except Err EngineState :=
  match env.dialErr with
  | some e => .error e
  | none => newRocketpoolExporter env

/-! ### Batch persistence layer (rocketpool.go lines 248-449)

The SQL side is modelled at the level of transaction-control calls and
bulk insert statements.  A statement string
`insert into T (cols) values (...),... on conflict (keys) do update set
c = excluded.c, ...` together with its flattened parameter array is
represented structurally: the table name, the insert column list (in
parameter order), the conflict target, the DO UPDATE SET column list, the
scope value bound as the first parameter of every row tuple, and the rows
of the batch. -/

/-- One parameter-tuple row of a bulk statement. -/
inductive RowData
  | minipool (m : RocketpoolMinipool)
  | node (n : RocketpoolNode)
  | proposal (p : RocketpoolProposal)
  deriving DecidableEq

/-- Structural representation of one bulk upsert statement. -/
structure Stmt where
  table : String
  insertColumns : List String
  conflictColumns : List String
  updateColumns : List String
  scope : Bytes
  rows : List RowData
  deriving DecidableEq

/-- Observable database calls of one Save invocation. -/
inductive DBEvent
  | beginTx
  | exec (s : Stmt)
  | commitTx
  | rollbackTx
  deriving DecidableEq

/-- Transaction environment: outcome of Beginx, of the i-th Exec call of
this transaction (0-based batch index), and of Commit. -/
structure TxEnv where
  beginErr : Option Err
  execErr : Nat → Option Err
  commitErr : Option Err

/-- Batching: `for b := 0; b < len(data); b += batchSize` slices
`data[b:min(b+batchSize, len(data))]`.  The recursion is structured on a
fuel argument so that it reduces in the kernel; callers pass `l.length`,
which suffices for any positive batch size. -/
def chunksAux {α : Type} (bs : Nat) : Nat → List α → List (List α)
  | _, [] => []
  | 0, _ :: _ => []
  | fuel + 1, a :: l => (a :: l).take bs :: chunksAux bs fuel ((a :: l).drop bs)

/-- Split a list into consecutive batches of at most `bs` elements. -/
def chunks {α : Type} (bs : Nat) (l : List α) : List (List α) :=
  chunksAux bs l.length l

/-- Column lists of the minipool statement (line 303). -/
def minipoolsTable : String := "rocketpool_minipools"

def minipoolsInsertColumns : List String :=
  ["rocketpool_storage_address", "address", "pubkey", "status",
   "status_time", "node_address", "node_fee", "deposit_type"]

def minipoolsConflictColumns : List String :=
  ["rocketpool_storage_address", "address"]

def minipoolsUpdateColumns : List String :=
  ["pubkey", "status", "status_time", "node_address", "node_fee",
   "deposit_type"]

/-- Column lists of the node statement (line 366): the DO UPDATE SET list
contains only the three stake columns. -/
def nodesTable : String := "rocketpool_nodes"

def nodesInsertColumns : List String :=
  ["rocketpool_storage_address", "address", "timezone_location",
   "rpl_stake", "min_rpl_stake", "max_rpl_stake"]

def nodesConflictColumns : List String :=
  ["rocketpool_storage_address", "address"]

def nodesUpdateColumns : List String :=
  ["rpl_stake", "min_rpl_stake", "max_rpl_stake"]

/-- Column lists of the proposal statement (line 441). -/
def proposalsTable : String := "rocketpool_proposals"

def proposalsInsertColumns : List String :=
  ["rocketpool_storage_address", "id", "dao", "proposer_address",
   "message", "created_time", "start_time", "end_time", "expiry_time",
   "votes_required", "votes_for", "votes_against", "member_voted",
   "member_supported", "is_cancelled", "is_executed", "payload", "state"]

def proposalsConflictColumns : List String :=
  ["rocketpool_storage_address", "id"]

def proposalsUpdateColumns : List String :=
  ["dao", "proposer_address", "message", "created_time", "start_time",
   "end_time", "expiry_time", "votes_required", "votes_for",
   "votes_against", "member_voted", "member_supported", "is_cancelled",
   "is_executed", "payload", "state"]

/-- Bulk statement for one minipool batch. -/
def mkMinipoolsStmt (scope : Bytes) (batch : List RocketpoolMinipool) : Stmt :=
  { table := minipoolsTable, insertColumns := minipoolsInsertColumns,
    conflictColumns := minipoolsConflictColumns,
    updateColumns := minipoolsUpdateColumns, scope := scope,
    rows := batch.map RowData.minipool }

/-- Bulk statement for one node batch. -/
def mkNodesStmt (scope : Bytes) (batch : List RocketpoolNode) : Stmt :=
  { table := nodesTable, insertColumns := nodesInsertColumns,
    conflictColumns := nodesConflictColumns,
    updateColumns := nodesUpdateColumns, scope := scope,
    rows := batch.map RowData.node }

/-- Bulk statement for one proposal batch. -/
def mkProposalsStmt (scope : Bytes) (batch : List RocketpoolProposal) : Stmt :=
  { table := proposalsTable, insertColumns := proposalsInsertColumns,
    conflictColumns := proposalsConflictColumns,
    updateColumns := proposalsUpdateColumns, scope := scope,
    rows := batch.map RowData.proposal }

/-- Exec loop over the batch statements of one Save call, `i` being the
0-based index of the Exec call inside the transaction.  Returns the first
error, if any, and the exec events emitted; the failing Exec is included
(the call was issued and returned an error), and the loop stops there. -/
def txExecLoop (env : TxEnv) : Nat → List Stmt → Option Err × List DBEvent
  | _, [] => (none, [])
  | i, s :: rest =>
    match env.execErr i with
    | some e => (some e, [DBEvent.exec s])
    | none =>
      let r := txExecLoop env (i + 1) rest
      (r.1, DBEvent.exec s :: r.2)

/-- Shared transaction shape of the three Save functions: one Beginx, every
batch statement executed inside that single transaction, one Commit at the
end.  The deferred `tx.Rollback()` emits a rollback on every error-return
path; after a successful Commit it is a no-op and emits nothing. -/
def runSaveTx (env : TxEnv) (stmts : List Stmt) : Option Err × List DBEvent :=
  match env.beginErr with
  | some e => (some e, [])
  | none =>
    let r := txExecLoop env 0 stmts
    match r.1 with
    | some e => (some e, DBEvent.beginTx :: r.2 ++ [DBEvent.rollbackTx])
    | none =>
      match env.commitErr with
      | some e => (some e, DBEvent.beginTx :: r.2 ++ [DBEvent.rollbackTx])
      | none => (none, DBEvent.beginTx :: r.2 ++ [DBEvent.commitTx])

/-- SaveMinipools (lines 248-311): skip entirely on an empty cache, else
flatten the cache values (list order standing in for one arbitrary Go map
iteration order), batch them 1000 rows per statement and run the single
transaction. -/
def saveMinipools (env : TxEnv) (scope : Bytes) (cache : MinipoolCache) :
    Option Err × List DBEvent :=
  if cache.length = 0 then (none, [])
  else runSaveTx env ((chunks 1000 (cache.map Prod.snd)).map (mkMinipoolsStmt scope))

/-- SaveNodes (lines 313-374). -/
def saveNodes (env : TxEnv) (scope : Bytes) (cache : NodeCache) :
    Option Err × List DBEvent :=
  if cache.length = 0 then (none, [])
  else runSaveTx env ((chunks 1000 (cache.map Prod.snd)).map (mkNodesStmt scope))

/-- SaveProposals (lines 376-449). -/
def saveProposals (env : TxEnv) (scope : Bytes) (cache : ProposalCache) :
    Option Err × List DBEvent :=
  if cache.length = 0 then (none, [])
  else runSaveTx env ((chunks 1000 (cache.map Prod.snd)).map (mkProposalsStmt scope))

/-- Per-cycle database environment: one transaction environment for each
kind, in the order in which Save opens them. -/
structure SaveEnv where
  minipoolsTx : TxEnv
  nodesTx : TxEnv
  proposalsTx : TxEnv

/-- Save (lines 155-170): the three kind saves in the fixed order
minipools, nodes, proposals, stopping at the first error. -/
def engineSave (env : SaveEnv) (st : EngineState) : Option Err × List DBEvent :=
  let r1 := saveMinipools env.minipoolsTx st.scope st.minipools
  match r1.1 with
  | some e => (some e, r1.2)
  | none =>
    let r2 := saveNodes env.nodesTx st.scope st.nodes
    match r2.1 with
    | some e => (some e, r1.2 ++ r2.2)
    | none =>
      let r3 := saveProposals env.proposalsTx st.scope st.proposals
      (r3.1, r1.2 ++ r2.2 ++ r3.2)

/-! ### Scheduler loop (rocketpool.go lines 123-145) -/

/-- Observable behaviour of one iteration of the Run loop: whether Save was
invoked, whether the iteration ended in the 2-second failure sleep, and
whether it ended blocking on the ticker channel. -/
structure IterObs where
  saveInvoked : Bool
  sleptShortDelay : Bool
  waitedForTick : Bool
  deriving DecidableEq

/-- One iteration of the Run loop body: Update; on error sleep 2 seconds
and restart without touching the ticker; otherwise Save; on error likewise;
on success block on the next tick. -/
def runIteration (api : ChainAPI) (denv : SaveEnv) (st : EngineState) :
    EngineState × IterObs :=
  let u := engineUpdate api st
  match u.2 with
  | some _ =>
      (u.1, { saveInvoked := false, sleptShortDelay := true,
              waitedForTick := false })
  | none =>
    match (engineSave denv u.1).1 with
    | some _ =>
        (u.1, { saveInvoked := true, sleptShortDelay := true,
                waitedForTick := false })
    | none =>
        (u.1, { saveInvoked := true, sleptShortDelay := false,
                waitedForTick := true })

/-! ### Trace observations -/

def isBeginTx : DBEvent → Bool
  | DBEvent.beginTx => true
  | _ => false

def isExec : DBEvent → Bool
  | DBEvent.exec _ => true
  | _ => false

def isCommitTx : DBEvent → Bool
  | DBEvent.commitTx => true
  | _ => false

/-- Number of transactions opened in a trace. -/
def beginCount (evs : List DBEvent) : Nat := (evs.filter isBeginTx).length

/-- Number of batch statements executed in a trace. -/
def execCount (evs : List DBEvent) : Nat := (evs.filter isExec).length

/-- Number of commits in a trace; a statement effect is durable only when
its transaction committed. -/
def commitCount (evs : List DBEvent) : Nat := (evs.filter isCommitTx).length

/-- Tables touched by the statements of a trace. -/
def execTables (evs : List DBEvent) : List String :=
  evs.filterMap fun ev =>
    match ev with
    | DBEvent.exec s => some s.table
    | _ => none

/-! ### Concrete fixtures used by counterexamples and witnesses -/

/-- A chain read API on which every read succeeds: one minipool (address 5),
one node (address 7), one proposal, with simple distinct field values. -/
def okChain : ChainAPI :=
  { getMinipoolAddresses := .ok [5]
    getMinipoolPubkey := fun a => .ok (a + 100)
    newMinipoolErr := fun _ => none
    getNodeAddress := fun a => .ok (a + 200)
    getNodeFee := fun _ => .ok 3
    getDepositType := fun _ => .ok "Full"
    getStatus := fun _ => .ok "Staking"
    getStatusTime := fun _ => .ok 42
    getNodeAddresses := .ok [7]
    getNodeTimezoneLocation := fun _ => .ok "Etc/UTC"
    getNodeRPLStake := fun _ => .ok 11
    getNodeMinimumRPLStake := fun _ => .ok 1
    getNodeMaximumRPLStake := fun _ => .ok 111
    getProposalCount := .ok 1
    getProposalDetails := fun pid =>
      .ok { ID := pid, DAO := "trusted", ProposerAddress := 9, Message := "m",
            CreatedTime := 1, StartTime := 2, EndTime := 3, ExpiryTime := 4,
            VotesRequired := 5, VotesFor := 6, VotesAgainst := 7,
            MemberVoted := false, MemberSupported := false,
            IsCancelled := false, IsExecuted := false, Payload := 8,
            State := "Active" } }

/-- The minipool entity produced by `newRocketpoolMinipool okChain 5`. -/
def mpW : RocketpoolMinipool :=
  { Address := 5, Pubkey := 105, NodeAddress := 205, NodeFee := 3,
    DepositType := "Full", Status := "Staking", StatusTime := 42 }

/-- The node entity produced by `newRocketpoolNode okChain 7`. -/
def ndW : RocketpoolNode :=
  { Address := 7, TimezoneLocation := "Etc/UTC", RPLStake := 11,
    MinRPLStake := 1, MaxRPLStake := 111 }

/-- The proposal entity produced by `newRocketpoolProposal okChain 1`. -/
def pW : RocketpoolProposal :=
  { ID := 1, DAO := "trusted", ProposerAddress := 9, Message := "m",
    CreatedTime := 1, StartTime := 2, EndTime := 3, ExpiryTime := 4,
    VotesRequired := 5, VotesFor := 6, VotesAgainst := 7,
    MemberVoted := false, MemberSupported := false, IsCancelled := false,
    IsExecuted := false, Payload := 8, State := "Active" }

/-- okChain with a failing minipool status read. -/
def failStatusChain : ChainAPI :=
  { okChain with getStatus := fun _ => .error "boom" }

/-- okChain with a failing node minimum-stake read. -/
def failMinStakeChain : ChainAPI :=
  { okChain with getNodeMinimumRPLStake := fun _ => .error "boom" }

/-- okChain with a failing proposal-details read. -/
def failDetailsChain : ChainAPI :=
  { okChain with getProposalDetails := fun _ => .error "boom" }

/-- Two durable-storage minipool rows with distinct identifiers and
distinct attribute values. -/
def mpRow1 : RocketpoolMinipool :=
  { Address := 1, Pubkey := 101, NodeAddress := 201, NodeFee := 3,
    DepositType := "Full", Status := "Staking", StatusTime := 10 }

def mpRow2 : RocketpoolMinipool :=
  { Address := 2, Pubkey := 102, NodeAddress := 202, NodeFee := 4,
    DepositType := "Half", Status := "Prelaunch", StatusTime := 20 }

/-- Startup environment: both constructions succeed and durable storage
holds one minipool row. -/
def startupEnvOneRow : StartupEnv :=
  { dialErr := none, newRocketPoolErr := none, storageContractAddress := 77,
    db := { minipoolRows := .ok [mpRow1], nodeRows := .ok [],
            proposalRows := .ok [] } }

/-- Transaction environment on which every call succeeds. -/
def envOkTx : TxEnv :=
  { beginErr := none, execErr := fun _ => none, commitErr := none }

/-- Transaction environment whose second Exec call fails. -/
def envFailSecondExec : TxEnv :=
  { beginErr := none,
    execErr := fun i => if i = 1 then some "exec failed" else none,
    commitErr := none }

/-- Transaction environment on which every Exec call fails. -/
def envFailExec : TxEnv :=
  { beginErr := none, execErr := fun _ => some "exec failed",
    commitErr := none }

/-- A cache of 1001 minipools, enough for two batches of at most 1000. -/
def bigMinipoolCache : MinipoolCache :=
  (List.range 1001).map fun i => (i, { mpW with Address := i })

/-! ### C6 — per-entity refresh is all-or-nothing -/

theorem minipoolRefresh_err_eq (api : ChainAPI) (mp : RocketpoolMinipool)
    (h : ((minipoolRefresh api mp).2).isSome = true) :
    (minipoolRefresh api mp).1 = mp := by
  rcases hn : api.newMinipoolErr mp.Address with _ | e
  · rcases hs : api.getStatus mp.Address with e1 | st
    · simp [minipoolRefresh, hn, hs]
    · rcases ht : api.getStatusTime mp.Address with e2 | t
      · simp [minipoolRefresh, hn, hs, ht]
      · simp [minipoolRefresh, hn, hs, ht] at h
  · simp [minipoolRefresh, hn]

theorem nodeRefresh_err_eq (api : ChainAPI) (nd : RocketpoolNode)
    (h : ((nodeRefresh api nd).2).isSome = true) :
    (nodeRefresh api nd).1 = nd := by
  rcases h1 : api.getNodeRPLStake nd.Address with e1 | s1
  · simp [nodeRefresh, h1]
  · rcases h2 : api.getNodeMinimumRPLStake nd.Address with e2 | s2
    · simp [nodeRefresh, h1, h2]
    · rcases h3 : api.getNodeMaximumRPLStake nd.Address with e3 | s3
      · simp [nodeRefresh, h1, h2, h3]
      · simp [nodeRefresh, h1, h2, h3] at h

theorem proposalRefresh_err_eq (api : ChainAPI) (p : RocketpoolProposal)
    (h : ((proposalRefresh api p).2).isSome = true) :
    (proposalRefresh api p).1 = p := by
  rcases h1 : api.getProposalDetails p.ID with e1 | pd
  · simp [proposalRefresh, h1]
  · simp [proposalRefresh, h1] at h

/-- C6: every per-entity refresh (RocketpoolMinipool.Update,
RocketpoolNode.Update, RocketpoolProposal.Update) is all-or-nothing: when
any of the reads it performs fails, the error is returned and the
post-call entity equals the pre-call entity in every field; fields are
overwritten only when all reads succeed. -/
theorem claim_refresh_all_or_nothing :
    (∀ (api : ChainAPI) (mp : RocketpoolMinipool),
        ((minipoolRefresh api mp).2).isSome = true →
          (minipoolRefresh api mp).1 = mp) ∧
    (∀ (api : ChainAPI) (nd : RocketpoolNode),
        ((nodeRefresh api nd).2).isSome = true →
          (nodeRefresh api nd).1 = nd) ∧
    (∀ (api : ChainAPI) (p : RocketpoolProposal),
        ((proposalRefresh api p).2).isSome = true →
          (proposalRefresh api p).1 = p) :=
  ⟨minipoolRefresh_err_eq, nodeRefresh_err_eq, proposalRefresh_err_eq⟩

/-- Witness for C6: concrete failing reads leave the concrete entities
untouched. -/
theorem claim_refresh_all_or_nothing_witness :
    (minipoolRefresh failStatusChain mpW).1 = mpW ∧
    (nodeRefresh failMinStakeChain ndW).1 = ndW ∧
    (proposalRefresh failDetailsChain pW).1 = pW :=
  ⟨claim_refresh_all_or_nothing.1 failStatusChain mpW (by decide),
   claim_refresh_all_or_nothing.2.1 failMinStakeChain ndW (by decide),
   claim_refresh_all_or_nothing.2.2 failDetailsChain pW (by decide)⟩

/-! ### C1 — proposal cache keying -/

/-- C1 (code bug): with a proposal count of 1 and a chain whose proposal
details carry the queried id, one successful run of UpdateProposals on the
empty cache yields the key set [0]: there is no entry under id 1 — the
only id in [1, pc] — and the entry stored at key 0 holds the proposal
whose id is 1.  The loop constructs the proposal for id i+1 but stores it
under key i, while InitProposals keys the same cache by the proposal id. -/
theorem updateProposals_stores_at_shifted_key :
    (updateProposals okChain []).2 = none ∧
    keysA (updateProposals okChain []).1 = [0] ∧
    lookupA (updateProposals okChain []).1 1 = none ∧
    (lookupA (updateProposals okChain []).1 0).map RocketpoolProposal.ID =
      some 1 := by decide

/-! ### C4 — startup does not seed the caches -/

/-- C4 (code bug): the startup path dials, constructs the engine with
three empty caches and immediately enters Run; Init is never invoked on
this path.  With one minipool row in durable storage, the state with which
Run begins its first cycle has every cache empty, although the (dead)
loader applied to the same rows would have seeded the key. -/
theorem startup_runs_with_unseeded_cache :
    rocketpoolExporterStartup startupEnvOneRow =
      .ok { scope := 77, minipools := [], nodes := [], proposals := [] } ∧
    (lookupA (initMinipools [mpRow1] []) mpRow1.Address).isSome = true := by
  decide

/-! ### C5 — initial load aliases every entry to the last row -/

/-- C5 (code bug): after InitMinipools over two rows with distinct
identifiers, both keys are present but the entry under the first row's
address holds the second (last) row's attribute values, because every map
entry stores the same pointer to the single Go loop variable. -/
theorem initMinipools_last_row_aliasing :
    keysA (initMinipools [mpRow1, mpRow2] []) = [1, 2] ∧
    lookupA (initMinipools [mpRow1, mpRow2] []) 1 = some mpRow2 ∧
    mpRow2 ≠ mpRow1 := by decide

/-! ### C3 — upsert conflict-update column lists -/

/-- C3 counterexample: for the node kind the DO UPDATE SET list does not
cover every non-key column — timezone_location is a non-key insert column
of the node statement but is absent from its update list. -/
theorem nodes_upsert_omits_timezone :
    ¬ (nodesInsertColumns.filter
        (fun c => !(nodesConflictColumns.contains c)) = nodesUpdateColumns) := by
  decide

/-- C3 amended: the minipool and proposal upserts update every non-key
column on conflict; the node upsert updates exactly the three stake
columns and leaves timezone_location as inserted. -/
theorem upsert_update_column_lists :
    minipoolsInsertColumns.filter
      (fun c => !(minipoolsConflictColumns.contains c)) =
        minipoolsUpdateColumns ∧
    proposalsInsertColumns.filter
      (fun c => !(proposalsConflictColumns.contains c)) =
        proposalsUpdateColumns ∧
    nodesInsertColumns.filter
      (fun c => !(nodesConflictColumns.contains c)) =
        "timezone_location" :: nodesUpdateColumns := by decide

/-! ### C9 — scheduler loop semantics -/

/-- C9: in every iteration of the Run loop, Save is invoked exactly when
Update returned success — a cycle whose refresh fails performs no
persistence for any kind — and an iteration failing in either step ends in
the short fixed retry sleep without consuming the next scheduled tick,
while a fully successful iteration consumes the tick and does not sleep. -/
theorem claim_run_schedule :
    ∀ (api : ChainAPI) (denv : SaveEnv) (st : EngineState),
      (runIteration api denv st).2.saveInvoked =
        (engineUpdate api st).2.isNone ∧
      (runIteration api denv st).2.waitedForTick =
        ((engineUpdate api st).2.isNone &&
          (engineSave denv (engineUpdate api st).1).1.isNone) ∧
      (runIteration api denv st).2.sleptShortDelay =
        !(runIteration api denv st).2.waitedForTick := by
  intro api denv st
  rcases hu : (engineUpdate api st).2 with _ | e
  · rcases hs : (engineSave denv (engineUpdate api st).1).1 with _ | e2
    · simp [runIteration, hu, hs]
    · simp [runIteration, hu, hs]
  · simp [runIteration, hu]

/-! ### C10 — persist order and stop at first failure -/

theorem txExecLoop_exec_mem (env : TxEnv) :
    ∀ (ss : List Stmt) (i : Nat) (s : Stmt),
      DBEvent.exec s ∈ (txExecLoop env i ss).2 → s ∈ ss := by
  intro ss
  induction ss with
  | nil => intro i s h; simp [txExecLoop] at h
  | cons s0 rest ih =>
    intro i s h
    rcases he : env.execErr i with _ | e
    · simp only [txExecLoop, he, List.mem_cons] at h
      rcases h with h | h
      · rw [DBEvent.exec.inj h]
        exact List.mem_cons_self s0 rest
      · exact List.mem_cons_of_mem s0 (ih (i + 1) s h)
    · simp only [txExecLoop, he, List.mem_singleton] at h
      rw [DBEvent.exec.inj h]
      exact List.mem_cons_self s0 rest

theorem runSaveTx_exec_mem (env : TxEnv) (ss : List Stmt) (s : Stmt)
    (h : DBEvent.exec s ∈ (runSaveTx env ss).2) : s ∈ ss := by
  unfold runSaveTx at h
  rcases hb : env.beginErr with _ | e
  · rcases hr : (txExecLoop env 0 ss).1 with _ | e1
    · rcases hc : env.commitErr with _ | e2
      · simp [hb, hr, hc] at h
        exact txExecLoop_exec_mem env ss 0 s h
      · simp [hb, hr, hc] at h
        exact txExecLoop_exec_mem env ss 0 s h
    · simp [hb, hr] at h
      exact txExecLoop_exec_mem env ss 0 s h
  · simp [hb] at h

theorem mem_execTables (evs : List DBEvent) (t : String) :
    t ∈ execTables evs ↔ ∃ s : Stmt, DBEvent.exec s ∈ evs ∧ s.table = t := by
  simp only [execTables, List.mem_filterMap]
  constructor
  · rintro ⟨ev, hev, hf⟩
    cases ev with
    | exec s => exact ⟨s, hev, Option.some.inj hf⟩
    | beginTx => simp at hf
    | commitTx => simp at hf
    | rollbackTx => simp at hf
  · rintro ⟨s, hs, ht⟩
    exact ⟨DBEvent.exec s, hs, congrArg some ht⟩

theorem saveMinipools_exec_table (env : TxEnv) (scope : Bytes)
    (cache : MinipoolCache) :
    ∀ t ∈ execTables (saveMinipools env scope cache).2, t = minipoolsTable := by
  intro t ht
  rcases (mem_execTables _ _).mp ht with ⟨s, hs, hst⟩
  by_cases hc : cache.length = 0
  · simp [saveMinipools, hc] at hs
  · simp only [saveMinipools, if_neg hc] at hs
    rcases List.mem_map.mp (runSaveTx_exec_mem env _ s hs) with ⟨batch, _, hmk⟩
    rw [← hst, ← hmk]
    rfl

theorem saveNodes_exec_table (env : TxEnv) (scope : Bytes)
    (cache : NodeCache) :
    ∀ t ∈ execTables (saveNodes env scope cache).2, t = nodesTable := by
  intro t ht
  rcases (mem_execTables _ _).mp ht with ⟨s, hs, hst⟩
  by_cases hc : cache.length = 0
  · simp [saveNodes, hc] at hs
  · simp only [saveNodes, if_neg hc] at hs
    rcases List.mem_map.mp (runSaveTx_exec_mem env _ s hs) with ⟨batch, _, hmk⟩
    rw [← hst, ← hmk]
    rfl

theorem saveProposals_exec_table (env : TxEnv) (scope : Bytes)
    (cache : ProposalCache) :
    ∀ t ∈ execTables (saveProposals env scope cache).2, t = proposalsTable := by
  intro t ht
  rcases (mem_execTables _ _).mp ht with ⟨s, hs, hst⟩
  by_cases hc : cache.length = 0
  · simp [saveProposals, hc] at hs
  · simp only [saveProposals, if_neg hc] at hs
    rcases List.mem_map.mp (runSaveTx_exec_mem env _ s hs) with ⟨batch, _, hmk⟩
    rw [← hst, ← hmk]
    rfl

/-- C10: Save writes the three kinds sequentially in the fixed order
minipools, nodes, proposals, and stops at the first failure: when an
earlier kind's save fails, the overall result is that error, the trace is
exactly what was emitted up to that point, and no statement against a
later kind's table appears in the cycle. -/
theorem claim_save_order_stop_first_failure :
    ∀ (env : SaveEnv) (st : EngineState),
      ((saveMinipools env.minipoolsTx st.scope st.minipools).1.isSome = true →
        engineSave env st =
          ((saveMinipools env.minipoolsTx st.scope st.minipools).1,
           (saveMinipools env.minipoolsTx st.scope st.minipools).2) ∧
        nodesTable ∉ execTables (engineSave env st).2 ∧
        proposalsTable ∉ execTables (engineSave env st).2) ∧
      ((saveMinipools env.minipoolsTx st.scope st.minipools).1 = none →
        (saveNodes env.nodesTx st.scope st.nodes).1.isSome = true →
        engineSave env st =
          ((saveNodes env.nodesTx st.scope st.nodes).1,
           (saveMinipools env.minipoolsTx st.scope st.minipools).2 ++
             (saveNodes env.nodesTx st.scope st.nodes).2) ∧
        proposalsTable ∉ execTables (engineSave env st).2) ∧
      ((saveMinipools env.minipoolsTx st.scope st.minipools).1 = none →
        (saveNodes env.nodesTx st.scope st.nodes).1 = none →
        engineSave env st =
          ((saveProposals env.proposalsTx st.scope st.proposals).1,
           (saveMinipools env.minipoolsTx st.scope st.minipools).2 ++
             (saveNodes env.nodesTx st.scope st.nodes).2 ++
             (saveProposals env.proposalsTx st.scope st.proposals).2)) := by
  intro env st
  refine ⟨?_, ?_, ?_⟩
  · intro h
    rcases hm : (saveMinipools env.minipoolsTx st.scope st.minipools).1
      with _ | e
    · rw [hm] at h; simp at h
    · have htr : engineSave env st =
          (some e, (saveMinipools env.minipoolsTx st.scope st.minipools).2) := by
        simp [engineSave, hm]
      refine ⟨by simp [htr, hm], ?_, ?_⟩
      · intro hmem
        rw [htr] at hmem
        have := saveMinipools_exec_table env.minipoolsTx st.scope st.minipools
          nodesTable hmem
        exact absurd this (by decide)
      · intro hmem
        rw [htr] at hmem
        have := saveMinipools_exec_table env.minipoolsTx st.scope st.minipools
          proposalsTable hmem
        exact absurd this (by decide)
  · intro hm h
    rcases hn : (saveNodes env.nodesTx st.scope st.nodes).1 with _ | e
    · rw [hn] at h; simp at h
    · have htr : engineSave env st =
          (some e, (saveMinipools env.minipoolsTx st.scope st.minipools).2 ++
            (saveNodes env.nodesTx st.scope st.nodes).2) := by
        simp [engineSave, hm, hn]
      refine ⟨by simp [htr, hn], ?_⟩
      intro hmem
      rw [htr] at hmem
      rcases (mem_execTables _ _).mp hmem with ⟨s, hs, hst⟩
      rcases List.mem_append.mp hs with hs | hs
      · have := saveMinipools_exec_table env.minipoolsTx st.scope st.minipools
          proposalsTable ((mem_execTables _ _).mpr ⟨s, hs, hst⟩)
        exact absurd this (by decide)
      · have := saveNodes_exec_table env.nodesTx st.scope st.nodes
          proposalsTable ((mem_execTables _ _).mpr ⟨s, hs, hst⟩)
        exact absurd this (by decide)
  · intro hm hn
    simp [engineSave, hm, hn]

/-- Per-cycle database environment in which the minipool transaction fails
on its first statement and the other two kinds would succeed. -/
def saveEnvMpFail : SaveEnv :=
  { minipoolsTx := envFailExec, nodesTx := envOkTx, proposalsTx := envOkTx }

/-- Engine state holding one entity of each kind. -/
def stW : EngineState :=
  { scope := 77, minipools := [(5, mpW)], nodes := [(7, ndW)],
    proposals := [(0, pW)] }

/-- Witness for C10: with the minipool transaction failing, the cycle
stops after the minipool trace and touches no other table. -/
theorem claim_save_order_stop_first_failure_witness :
    engineSave saveEnvMpFail stW =
      ((saveMinipools saveEnvMpFail.minipoolsTx stW.scope stW.minipools).1,
       (saveMinipools saveEnvMpFail.minipoolsTx stW.scope stW.minipools).2) ∧
    nodesTable ∉ execTables (engineSave saveEnvMpFail stW).2 ∧
    proposalsTable ∉ execTables (engineSave saveEnvMpFail stW).2 :=
  (claim_save_order_stop_first_failure saveEnvMpFail stW).1 (by decide)

/-! ### C2 — batching and transaction structure -/

theorem beginCount_cons_exec (s : Stmt) (evs : List DBEvent) :
    beginCount (DBEvent.exec s :: evs) = beginCount evs := by
  simp [beginCount, List.filter_cons, isBeginTx]

theorem commitCount_cons_exec (s : Stmt) (evs : List DBEvent) :
    commitCount (DBEvent.exec s :: evs) = commitCount evs := by
  simp [commitCount, List.filter_cons, isCommitTx]

theorem execCount_cons_exec (s : Stmt) (evs : List DBEvent) :
    execCount (DBEvent.exec s :: evs) = execCount evs + 1 := by
  simp [execCount, List.filter_cons, isExec]

theorem beginCount_cons_begin (evs : List DBEvent) :
    beginCount (DBEvent.beginTx :: evs) = beginCount evs + 1 := by
  simp [beginCount, List.filter_cons, isBeginTx]

theorem commitCount_cons_begin (evs : List DBEvent) :
    commitCount (DBEvent.beginTx :: evs) = commitCount evs := by
  simp [commitCount, List.filter_cons, isCommitTx]

theorem execCount_cons_begin (evs : List DBEvent) :
    execCount (DBEvent.beginTx :: evs) = execCount evs := by
  simp [execCount, List.filter_cons, isExec]

theorem beginCount_append (a b : List DBEvent) :
    beginCount (a ++ b) = beginCount a + beginCount b := by
  simp [beginCount, List.filter_append]

theorem commitCount_append (a b : List DBEvent) :
    commitCount (a ++ b) = commitCount a + commitCount b := by
  simp [commitCount, List.filter_append]

theorem execCount_append (a b : List DBEvent) :
    execCount (a ++ b) = execCount a + execCount b := by
  simp [execCount, List.filter_append]

/-- Count structure of the exec loop: it emits no transaction-control
events, and when it succeeds it emits exactly one exec event per
statement. -/
theorem txExecLoop_counts (env : TxEnv) :
    ∀ (ss : List Stmt) (i : Nat),
      beginCount (txExecLoop env i ss).2 = 0 ∧
      commitCount (txExecLoop env i ss).2 = 0 ∧
      ((txExecLoop env i ss).1 = none →
        execCount (txExecLoop env i ss).2 = ss.length) := by
  intro ss
  induction ss with
  | nil => intro i; exact ⟨rfl, rfl, fun _ => rfl⟩
  | cons s0 rest ih =>
    intro i
    rcases he : env.execErr i with _ | e
    · have h := ih (i + 1)
      refine ⟨?_, ?_, ?_⟩
      · simp only [txExecLoop, he]
        rw [beginCount_cons_exec]
        exact h.1
      · simp only [txExecLoop, he]
        rw [commitCount_cons_exec]
        exact h.2.1
      · intro hok
        simp only [txExecLoop, he] at hok ⊢
        rw [execCount_cons_exec, h.2.2 hok, List.length_cons]
    · refine ⟨?_, ?_, ?_⟩
      · simp only [txExecLoop, he]
        rw [beginCount_cons_exec]
        rfl
      · simp only [txExecLoop, he]
        rw [commitCount_cons_exec]
        rfl
      · intro hok
        simp only [txExecLoop, he] at hok
        simp at hok

/-- Count structure of one Save transaction: a single Beginx when Beginx
succeeds; on overall success one exec per statement and exactly one
Commit; on any failure no Commit at all. -/
theorem runSaveTx_counts (env : TxEnv) (ss : List Stmt) :
    (env.beginErr = none → beginCount (runSaveTx env ss).2 = 1) ∧
    ((runSaveTx env ss).1 = none →
      execCount (runSaveTx env ss).2 = ss.length ∧
      commitCount (runSaveTx env ss).2 = 1) ∧
    ((runSaveTx env ss).1.isSome = true →
      commitCount (runSaveTx env ss).2 = 0) := by
  have hloop := txExecLoop_counts env ss 0
  rcases hb : env.beginErr with _ | e
  · rcases hr : (txExecLoop env 0 ss).1 with _ | e1
    · rcases hc : env.commitErr with _ | e2
      · have htr1 : (runSaveTx env ss).1 = none := by
          simp [runSaveTx, hb, hr, hc]
        have htr2 : (runSaveTx env ss).2 =
            DBEvent.beginTx :: (txExecLoop env 0 ss).2 ++
              [DBEvent.commitTx] := by
          simp [runSaveTx, hb, hr, hc]
        refine ⟨?_, ?_, ?_⟩
        · intro _
          rw [htr2, beginCount_append, beginCount_cons_begin, hloop.1]
          rfl
        · intro _
          constructor
          · rw [htr2, execCount_append, execCount_cons_begin, hloop.2.2 hr]
            rfl
          · rw [htr2, commitCount_append, commitCount_cons_begin, hloop.2.1]
            rfl
        · intro h
          rw [htr1] at h
          simp at h
      · have htr1 : (runSaveTx env ss).1 = some e2 := by
          simp [runSaveTx, hb, hr, hc]
        have htr2 : (runSaveTx env ss).2 =
            DBEvent.beginTx :: (txExecLoop env 0 ss).2 ++
              [DBEvent.rollbackTx] := by
          simp [runSaveTx, hb, hr, hc]
        refine ⟨?_, ?_, ?_⟩
        · intro _
          rw [htr2, beginCount_append, beginCount_cons_begin, hloop.1]
          rfl
        · intro h
          rw [htr1] at h
          simp at h
        · intro _
          rw [htr2, commitCount_append, commitCount_cons_begin, hloop.2.1]
          rfl
    · have htr1 : (runSaveTx env ss).1 = some e1 := by
        simp [runSaveTx, hb, hr]
      have htr2 : (runSaveTx env ss).2 =
          DBEvent.beginTx :: (txExecLoop env 0 ss).2 ++
            [DBEvent.rollbackTx] := by
        simp [runSaveTx, hb, hr]
      refine ⟨?_, ?_, ?_⟩
      · intro _
        rw [htr2, beginCount_append, beginCount_cons_begin, hloop.1]
        rfl
      · intro h
        rw [htr1] at h
        simp at h
      · intro _
        rw [htr2, commitCount_append, commitCount_cons_begin, hloop.2.1]
        rfl
  · have htr1 : (runSaveTx env ss).1 = some e := by
      simp [runSaveTx, hb]
    have htr2 : (runSaveTx env ss).2 = [] := by
      simp [runSaveTx, hb]
    refine ⟨?_, ?_, ?_⟩
    · intro h
      simp at h
    · intro h
      rw [htr1] at h
      simp at h
    · intro _
      rw [htr2]
      rfl

/-- Number of batches produced by the batching loop with the source batch
size of 1000: the ceiling of the data length over 1000.  Proved for any
fuel at least the list length; `chunks` passes the length itself. -/
theorem chunksAux_length_1000 {α : Type} :
    ∀ (fuel : Nat) (l : List α), l.length ≤ fuel →
      (chunksAux 1000 fuel l).length = (l.length + 999) / 1000 := by
  intro fuel
  induction fuel with
  | zero =>
    intro l hl
    have hnil : l = [] := List.length_eq_zero.mp (Nat.le_zero.mp hl)
    subst hnil
    simp [chunksAux]
  | succ fuel ih =>
    intro l hl
    cases l with
    | nil => simp [chunksAux]
    | cons a t =>
      simp only [chunksAux, List.length_cons]
      have hlen : ((a :: t).drop 1000).length = t.length + 1 - 1000 := by
        simp [List.length_drop]
      have hle : ((a :: t).drop 1000).length ≤ fuel := by
        rw [hlen]
        simp only [List.length_cons] at hl
        omega
      rw [ih _ hle, hlen]
      omega

theorem chunks_length_1000 {α : Type} (l : List α) :
    (chunks 1000 l).length = (l.length + 999) / 1000 :=
  chunksAux_length_1000 l.length l le_rfl

/-- C2 amended: persisting N > 0 cached minipools issues ceil(N/1000)
batch statements, but all of them inside ONE transaction that is begun
once and committed once at the end; when any batch statement (or the
commit) fails, nothing is committed at all — the statements already
executed are rolled back rather than remaining durable. -/
theorem saveMinipools_single_transaction :
    ∀ (env : TxEnv) (scope : Bytes) (cache : MinipoolCache),
      cache ≠ [] →
      (env.beginErr = none →
        beginCount (saveMinipools env scope cache).2 = 1) ∧
      ((saveMinipools env scope cache).1 = none →
        execCount (saveMinipools env scope cache).2 =
          (cache.length + 999) / 1000 ∧
        commitCount (saveMinipools env scope cache).2 = 1) ∧
      ((saveMinipools env scope cache).1.isSome = true →
        commitCount (saveMinipools env scope cache).2 = 0) := by
  intro env scope cache hne
  have hlen : ¬ cache.length = 0 := by
    intro h
    exact hne (List.length_eq_zero.mp h)
  have hsm : saveMinipools env scope cache =
      runSaveTx env
        ((chunks 1000 (cache.map Prod.snd)).map (mkMinipoolsStmt scope)) := by
    simp [saveMinipools, hlen]
  have hcounts := runSaveTx_counts env
    ((chunks 1000 (cache.map Prod.snd)).map (mkMinipoolsStmt scope))
  have hstmts :
      ((chunks 1000 (cache.map Prod.snd)).map (mkMinipoolsStmt scope)).length =
        (cache.length + 999) / 1000 := by
    rw [List.length_map, chunks_length_1000, List.length_map]
  rw [hsm]
  refine ⟨hcounts.1, fun h => ?_, hcounts.2.2⟩
  rcases hcounts.2.1 h with ⟨h1, h2⟩
  exact ⟨h1.trans hstmts, h2⟩

/-- Witness for C2 amended: one cached minipool persisted under an
all-success environment yields one begin, one exec and one commit; under
a failing exec nothing is committed. -/
theorem saveMinipools_single_transaction_witness :
    beginCount (saveMinipools envOkTx 77 [(5, mpW)]).2 = 1 ∧
    execCount (saveMinipools envOkTx 77 [(5, mpW)]).2 = 1 ∧
    commitCount (saveMinipools envOkTx 77 [(5, mpW)]).2 = 1 ∧
    commitCount (saveMinipools envFailExec 77 [(5, mpW)]).2 = 0 := by
  have h1 := saveMinipools_single_transaction envOkTx 77 [(5, mpW)] (by decide)
  have h2 := saveMinipools_single_transaction envFailExec 77 [(5, mpW)] (by decide)
  refine ⟨h1.1 rfl, ?_, (h1.2.1 rfl).2, h2.2.2 (by decide)⟩
  have h3 := (h1.2.1 rfl).1
  rw [h3]
  decide

set_option maxRecDepth 100000 in
/-- C2 counterexample: persisting 1001 minipools under a forced failure of
the second batch statement issues the two expected batch statements, but
opens a single transaction and commits nothing; the claimed two
independently committed transactions — with batch 1 surviving the failure
of batch 2 — do not occur. -/
theorem saveMinipools_not_per_batch_transactions :
    execCount (saveMinipools envFailSecondExec 77 bigMinipoolCache).2 = 2 ∧
    (saveMinipools envFailSecondExec 77 bigMinipoolCache).1 =
      some "exec failed" ∧
    ¬ (beginCount (saveMinipools envFailSecondExec 77 bigMinipoolCache).2 = 2 ∧
        1 ≤ commitCount (saveMinipools envFailSecondExec 77 bigMinipoolCache).2) := by
  decide

/-! ### C7 — discovery completeness -/

theorem updateMinipoolsGo_keys (api : ChainAPI) :
    ∀ (addrs : List Addr) (cache cache2 : MinipoolCache),
      updateMinipoolsGo api addrs cache = (cache2, none) →
      ∀ a, a ∈ keysA cache2 ↔ (a ∈ keysA cache ∨ a ∈ addrs) := by
  intro addrs
  induction addrs with
  | nil =>
    intro cache cache2 h a
    simp only [updateMinipoolsGo, Prod.mk.injEq] at h
    obtain ⟨rfl, -⟩ := h
    simp
  | cons b rest ih =>
    intro cache cache2 h a
    simp only [updateMinipoolsGo] at h
    rcases hl : lookupA cache b with _ | mp
    · rcases hn : newRocketpoolMinipool api b with e | mpN
      · simp [hl, hn] at h
      · simp only [hl, hn] at h
        rw [ih _ cache2 h a, mem_keysA_insertA]
        simp only [List.mem_cons]
        tauto
    · rcases hr : minipoolRefresh api mp with ⟨mp2, e?⟩
      rcases e? with _ | e
      · simp only [hl, hr] at h
        rw [ih _ cache2 h a, mem_keysA_insertA]
        simp only [List.mem_cons]
        tauto
      · simp [hl, hr] at h

theorem updateNodesGo_keys (api : ChainAPI) :
    ∀ (addrs : List Addr) (cache cache2 : NodeCache),
      updateNodesGo api addrs cache = (cache2, none) →
      ∀ a, a ∈ keysA cache2 ↔ (a ∈ keysA cache ∨ a ∈ addrs) := by
  intro addrs
  induction addrs with
  | nil =>
    intro cache cache2 h a
    simp only [updateNodesGo, Prod.mk.injEq] at h
    obtain ⟨rfl, -⟩ := h
    simp
  | cons b rest ih =>
    intro cache cache2 h a
    simp only [updateNodesGo] at h
    rcases hl : lookupA cache b with _ | nd
    · rcases hn : newRocketpoolNode api b with e | ndN
      · simp [hl, hn] at h
      · simp only [hl, hn] at h
        rw [ih _ cache2 h a, mem_keysA_insertA]
        simp only [List.mem_cons]
        tauto
    · rcases hr : nodeRefresh api nd with ⟨nd2, e?⟩
      rcases e? with _ | e
      · simp only [hl, hr] at h
        rw [ih _ cache2 h a, mem_keysA_insertA]
        simp only [List.mem_cons]
        tauto
      · simp [hl, hr] at h

/-- C7: starting from a cache whose key set is contained in the identifier
list returned by the chain read API, one successful minipool or node
refresh produces a cache whose key set is exactly that identifier list —
every listed identifier has an entry and no entry exists for an identifier
never observed. -/
theorem claim_discovery_completeness :
    (∀ (api : ChainAPI) (addrs : List Addr) (cache cache2 : MinipoolCache),
      api.getMinipoolAddresses = .ok addrs →
      (∀ k ∈ keysA cache, k ∈ addrs) →
      updateMinipools api cache = (cache2, none) →
      ∀ a, a ∈ keysA cache2 ↔ a ∈ addrs) ∧
    (∀ (api : ChainAPI) (addrs : List Addr) (cache cache2 : NodeCache),
      api.getNodeAddresses = .ok addrs →
      (∀ k ∈ keysA cache, k ∈ addrs) →
      updateNodes api cache = (cache2, none) →
      ∀ a, a ∈ keysA cache2 ↔ a ∈ addrs) := by
  constructor
  · intro api addrs cache cache2 hlist hsub h a
    have h2 : updateMinipoolsGo api addrs cache = (cache2, none) := by
      simpa [updateMinipools, hlist] using h
    rw [updateMinipoolsGo_keys api addrs cache cache2 h2 a]
    constructor
    · rintro (h | h)
      · exact hsub a h
      · exact h
    · exact Or.inr
  · intro api addrs cache cache2 hlist hsub h a
    have h2 : updateNodesGo api addrs cache = (cache2, none) := by
      simpa [updateNodes, hlist] using h
    rw [updateNodesGo_keys api addrs cache cache2 h2 a]
    constructor
    · rintro (h | h)
      · exact hsub a h
      · exact h
    · exact Or.inr

/-- Witness for C7: a successful refresh from the empty cache against the
one-minipool, one-node chain yields caches keyed exactly by the listed
identifiers (5 present, 9 absent; 7 present). -/
theorem claim_discovery_completeness_witness :
    ((5 : Nat) ∈ keysA [((5 : Nat), mpW)] ↔ (5 : Nat) ∈ [(5 : Nat)]) ∧
    ((9 : Nat) ∈ keysA [((5 : Nat), mpW)] ↔ (9 : Nat) ∈ [(5 : Nat)]) ∧
    ((7 : Nat) ∈ keysA [((7 : Nat), ndW)] ↔ (7 : Nat) ∈ [(7 : Nat)]) :=
  ⟨claim_discovery_completeness.1 okChain [5] [] [(5, mpW)] rfl
      (by simp [keysA]) (by decide) 5,
   claim_discovery_completeness.1 okChain [5] [] [(5, mpW)] rfl
      (by simp [keysA]) (by decide) 9,
   claim_discovery_completeness.2 okChain [7] [] [(7, ndW)] rfl
      (by simp [keysA]) (by decide) 7⟩

/-! ### C8 — identity stability of immutable attributes -/

/-- Equality of the minipool attributes that are set at creation and never
rewritten by refresh. -/
def mpImmutEq (x y : RocketpoolMinipool) : Prop :=
  x.Address = y.Address ∧ x.Pubkey = y.Pubkey ∧
  x.NodeAddress = y.NodeAddress ∧ x.NodeFee = y.NodeFee ∧
  x.DepositType = y.DepositType

/-- Equality of the node attributes that are set at creation and never
rewritten by refresh. -/
def ndImmutEq (x y : RocketpoolNode) : Prop :=
  x.Address = y.Address ∧ x.TimezoneLocation = y.TimezoneLocation

theorem mpImmutEq_refl (x : RocketpoolMinipool) : mpImmutEq x x :=
  ⟨rfl, rfl, rfl, rfl, rfl⟩

theorem mpImmutEq_trans {x y z : RocketpoolMinipool}
    (h1 : mpImmutEq x y) (h2 : mpImmutEq y z) : mpImmutEq x z :=
  ⟨h1.1.trans h2.1, h1.2.1.trans h2.2.1, h1.2.2.1.trans h2.2.2.1,
   h1.2.2.2.1.trans h2.2.2.2.1, h1.2.2.2.2.trans h2.2.2.2.2⟩

theorem ndImmutEq_refl (x : RocketpoolNode) : ndImmutEq x x := ⟨rfl, rfl⟩

theorem ndImmutEq_trans {x y z : RocketpoolNode}
    (h1 : ndImmutEq x y) (h2 : ndImmutEq y z) : ndImmutEq x z :=
  ⟨h1.1.trans h2.1, h1.2.trans h2.2⟩

theorem minipoolRefresh_immut (api : ChainAPI) (mp : RocketpoolMinipool) :
    mpImmutEq mp (minipoolRefresh api mp).1 := by
  rcases hn : api.newMinipoolErr mp.Address with _ | e
  · rcases hs : api.getStatus mp.Address with e1 | st
    · simp [minipoolRefresh, hn, hs, mpImmutEq]
    · rcases ht : api.getStatusTime mp.Address with e2 | t
      · simp [minipoolRefresh, hn, hs, ht, mpImmutEq]
      · simp [minipoolRefresh, hn, hs, ht, mpImmutEq]
  · simp [minipoolRefresh, hn, mpImmutEq]

theorem nodeRefresh_immut (api : ChainAPI) (nd : RocketpoolNode) :
    ndImmutEq nd (nodeRefresh api nd).1 := by
  rcases h1 : api.getNodeRPLStake nd.Address with e1 | s1
  · simp [nodeRefresh, h1, ndImmutEq]
  · rcases h2 : api.getNodeMinimumRPLStake nd.Address with e2 | s2
    · simp [nodeRefresh, h1, h2, ndImmutEq]
    · rcases h3 : api.getNodeMaximumRPLStake nd.Address with e3 | s3
      · simp [nodeRefresh, h1, h2, h3, ndImmutEq]
      · simp [nodeRefresh, h1, h2, h3, ndImmutEq]

theorem updateMinipoolsGo_immut (api : ChainAPI) :
    ∀ (addrs : List Addr) (cache cache2 : MinipoolCache) (res : Option Err),
      updateMinipoolsGo api addrs cache = (cache2, res) →
      ∀ a mp mp2, lookupA cache a = some mp → lookupA cache2 a = some mp2 →
        mpImmutEq mp mp2 := by
  intro addrs
  induction addrs with
  | nil =>
    intro cache cache2 res h a mp mp2 h1 h2
    simp only [updateMinipoolsGo, Prod.mk.injEq] at h
    obtain ⟨rfl, -⟩ := h
    rw [h1] at h2
    obtain rfl := Option.some.inj h2
    exact mpImmutEq_refl mp
  | cons b rest ih =>
    intro cache cache2 res h a mp mp2 h1 h2
    simp only [updateMinipoolsGo] at h
    rcases hl : lookupA cache b with _ | mpb
    · rcases hn : newRocketpoolMinipool api b with e | mpN
      · simp only [hl, hn, Prod.mk.injEq] at h
        obtain ⟨rfl, -⟩ := h
        rw [h1] at h2
        obtain rfl := Option.some.inj h2
        exact mpImmutEq_refl mp
      · simp only [hl, hn] at h
        by_cases hab : a = b
        · subst hab
          rw [h1] at hl
          exact Option.noConfusion hl
        · have h1b : lookupA (insertA cache b mpN) a = some mp := by
            rw [lookupA_insertA, if_neg (fun hba => hab hba.symm)]
            exact h1
          exact ih _ cache2 res h a mp mp2 h1b h2
    · rcases hr : minipoolRefresh api mpb with ⟨mpb2, e?⟩
      rcases e? with _ | e
      · simp only [hl, hr] at h
        by_cases hab : a = b
        · subst hab
          have hmp : mpb = mp := Option.some.inj (hl.symm.trans h1)
          have h1b : lookupA (insertA cache a mpb2) a = some mpb2 := by
            rw [lookupA_insertA, if_pos rfl]
          have hrec := ih _ cache2 res h a mpb2 mp2 h1b h2
          have him : mpImmutEq mpb mpb2 := by
            have h0 := minipoolRefresh_immut api mpb
            rw [hr] at h0
            exact h0
          exact hmp ▸ mpImmutEq_trans him hrec
        · have h1b : lookupA (insertA cache b mpb2) a = some mp := by
            rw [lookupA_insertA, if_neg (fun hba => hab hba.symm)]
            exact h1
          exact ih _ cache2 res h a mp mp2 h1b h2
      · simp only [hl, hr, Prod.mk.injEq] at h
        obtain ⟨rfl, -⟩ := h
        rw [h1] at h2
        obtain rfl := Option.some.inj h2
        exact mpImmutEq_refl mp

theorem updateNodesGo_immut (api : ChainAPI) :
    ∀ (addrs : List Addr) (cache cache2 : NodeCache) (res : Option Err),
      updateNodesGo api addrs cache = (cache2, res) →
      ∀ a nd nd2, lookupA cache a = some nd → lookupA cache2 a = some nd2 →
        ndImmutEq nd nd2 := by
  intro addrs
  induction addrs with
  | nil =>
    intro cache cache2 res h a nd nd2 h1 h2
    simp only [updateNodesGo, Prod.mk.injEq] at h
    obtain ⟨rfl, -⟩ := h
    rw [h1] at h2
    obtain rfl := Option.some.inj h2
    exact ndImmutEq_refl nd
  | cons b rest ih =>
    intro cache cache2 res h a nd nd2 h1 h2
    simp only [updateNodesGo] at h
    rcases hl : lookupA cache b with _ | ndb
    · rcases hn : newRocketpoolNode api b with e | ndN
      · simp only [hl, hn, Prod.mk.injEq] at h
        obtain ⟨rfl, -⟩ := h
        rw [h1] at h2
        obtain rfl := Option.some.inj h2
        exact ndImmutEq_refl nd
      · simp only [hl, hn] at h
        by_cases hab : a = b
        · subst hab
          rw [h1] at hl
          exact Option.noConfusion hl
        · have h1b : lookupA (insertA cache b ndN) a = some nd := by
            rw [lookupA_insertA, if_neg (fun hba => hab hba.symm)]
            exact h1
          exact ih _ cache2 res h a nd nd2 h1b h2
    · rcases hr : nodeRefresh api ndb with ⟨ndb2, e?⟩
      rcases e? with _ | e
      · simp only [hl, hr] at h
        by_cases hab : a = b
        · subst hab
          have hnd : ndb = nd := Option.some.inj (hl.symm.trans h1)
          have h1b : lookupA (insertA cache a ndb2) a = some ndb2 := by
            rw [lookupA_insertA, if_pos rfl]
          have hrec := ih _ cache2 res h a ndb2 nd2 h1b h2
          have him : ndImmutEq ndb ndb2 := by
            have h0 := nodeRefresh_immut api ndb
            rw [hr] at h0
            exact h0
          exact hnd ▸ ndImmutEq_trans him hrec
        · have h1b : lookupA (insertA cache b ndb2) a = some nd := by
            rw [lookupA_insertA, if_neg (fun hba => hab hba.symm)]
            exact h1
          exact ih _ cache2 res h a nd nd2 h1b h2
      · simp only [hl, hr, Prod.mk.injEq] at h
        obtain ⟨rfl, -⟩ := h
        rw [h1] at h2
        obtain rfl := Option.some.inj h2
        exact ndImmutEq_refl nd

/-- C8: for every minipool or node identifier present in the cache both
before and after a refresh (successful or not), the refresh leaves the
identifier and every immutable attribute of its entity unchanged —
minipool: address, pubkey, node address, node fee, deposit type; node:
address, timezone label; only mutable attributes may differ. -/
theorem claim_identity_stability :
    (∀ (api : ChainAPI) (cache cache2 : MinipoolCache) (res : Option Err)
        (a : Addr) (mp mp2 : RocketpoolMinipool),
      updateMinipools api cache = (cache2, res) →
      lookupA cache a = some mp → lookupA cache2 a = some mp2 →
      mpImmutEq mp mp2) ∧
    (∀ (api : ChainAPI) (cache cache2 : NodeCache) (res : Option Err)
        (a : Addr) (nd nd2 : RocketpoolNode),
      updateNodes api cache = (cache2, res) →
      lookupA cache a = some nd → lookupA cache2 a = some nd2 →
      ndImmutEq nd nd2) := by
  constructor
  · intro api cache cache2 res a mp mp2 h h1 h2
    rcases hg : api.getMinipoolAddresses with e | addrs
    · simp only [updateMinipools, hg, Prod.mk.injEq] at h
      obtain ⟨rfl, -⟩ := h
      rw [h1] at h2
      obtain rfl := Option.some.inj h2
      exact mpImmutEq_refl mp
    · have h3 : updateMinipoolsGo api addrs cache = (cache2, res) := by
        simpa [updateMinipools, hg] using h
      exact updateMinipoolsGo_immut api addrs cache cache2 res h3 a mp mp2 h1 h2
  · intro api cache cache2 res a nd nd2 h h1 h2
    rcases hg : api.getNodeAddresses with e | addrs
    · simp only [updateNodes, hg, Prod.mk.injEq] at h
      obtain ⟨rfl, -⟩ := h
      rw [h1] at h2
      obtain rfl := Option.some.inj h2
      exact ndImmutEq_refl nd
    · have h3 : updateNodesGo api addrs cache = (cache2, res) := by
        simpa [updateNodes, hg] using h
      exact updateNodesGo_immut api addrs cache cache2 res h3 a nd nd2 h1 h2

/-- mpW with different mutable attributes: a stale cache entry to refresh. -/
def mpStale : RocketpoolMinipool :=
  { mpW with Status := "Initialized", StatusTime := 1 }

/-- ndW with different mutable attributes. -/
def ndStale : RocketpoolNode :=
  { ndW with RPLStake := 1, MinRPLStake := 2, MaxRPLStake := 3 }

/-- Witness for C8: refreshing stale concrete entities rewrites only their
mutable attributes; the immutable ones survive unchanged. -/
theorem claim_identity_stability_witness :
    mpImmutEq mpStale mpW ∧ ndImmutEq ndStale ndW :=
  ⟨claim_identity_stability.1 okChain [(5, mpStale)] [(5, mpW)] none 5
      mpStale mpW (by decide) (by decide) (by decide),
   claim_identity_stability.2 okChain [(7, ndStale)] [(7, ndW)] none 7
      ndStale ndW (by decide) (by decide) (by decide)⟩

end RocketpoolSpec
